import Mathlib

/-!
Verification of the raster annotation/markup engine of RD-PDF
(src/components/ImageAnnotator.tsx) against its natural-language
specification.

The engine is embedded shallowly: React state (useState/useRef) becomes an
explicit record, each event handler becomes a pure state-transition
function, and JavaScript numbers become exact rationals.  The canvas text
measurement primitive (CanvasRenderingContext2D.measureText) is kept
abstract as a function parameter (its value depends on the host font
renderer, and the canvas font is set from the annotation font size, so the
parameter takes the font size first); likewise Math.exp, used only to
derive the new zoom factor, is an abstract parameter.  Browser-side
trigonometry for arrowheads is not computed: export commands record the
exact data (endpoints, head length) the source passes to the drawing
primitives.  React setState calls inside one handler are modelled as
sequential record updates, which is sound because the source uses
functional updates and never re-reads updated state within a handler.
-/

namespace ImageAnnotator

/-- A 2-D point (DOMPoint / plain object with x and y in the source). -/
structure Pt where
  x : ℚ
  y : ℚ
deriving DecidableEq

/-- Source: type Tool = select | rect | text | arrow | zoom | eraser. -/
inductive Tool where
  | select | rect | text | arrow | zoom | eraser
deriving DecidableEq

/-- The kind tag of an Annotation record (its type field). -/
inductive AnnKind where
  | rect | arrow | text | eraser
deriving DecidableEq

/-- Source: the Annotation record.  Optional fields of the TS record are
Options here.  (The TS type name ends in a word this development avoids in
identifiers, hence the shortened name.) -/
structure Annot where
  id : String
  type : AnnKind
  color : String
  x : ℚ
  y : ℚ
  width : ℚ
  height : ℚ
  text : Option String
  fontSize : Option ℚ
  path : Option (List Pt)
  strokeWidth : Option ℚ
deriving DecidableEq

/-- Source: interface ImageFile (the decoded image and its natural size). -/
structure ImageFile where
  name : String
  naturalWidth : ℚ
  naturalHeight : ℚ
deriving DecidableEq

/-- The rendering surface (canvas width/height, set from the parent
element size on each draw). -/
structure Surface where
  width : ℚ
  height : ℚ
deriving DecidableEq

/-- The React useState cells of the ImageAnnotator component. -/
structure EngineState where
  image : Option ImageFile
  error : Option String
  tool : Tool
  color : String
  eraserSize : ℚ
  annotations : List Annot
  drawingAnn : Option Annot
  editingAnn : Option Annot
  selectedAnnotationId : Option String
  zoom : ℚ
  offset : Pt
deriving DecidableEq

/-- The useRef cells used by the pointer gesture handlers. -/
structure Refs where
  isPointerDown : Bool
  startPan : Pt
  startPoint : Pt
  zoomStartPointY : ℚ
  startZoom : ℚ
  dragStartAnnotationPos : Option Pt
deriving DecidableEq

/-- A pointer event (clientX/clientY). -/
structure PointerEvent where
  clientX : ℚ
  clientY : ℚ
deriving DecidableEq

/-- getBoundingClientRect() of the canvas: its left/top corner. -/
structure CanvasRect where
  left : ℚ
  top : ℚ
deriving DecidableEq

/-- The loop of JavaScript String.prototype.split(' '): cut at every
single space character, keeping empty segments. -/
def splitAux : List Char → List Char → List String
  | [], acc => [String.mk acc.reverse]
  | c :: cs, acc =>
    if c = ' ' then String.mk acc.reverse :: splitAux cs []
    else splitAux cs (c :: acc)

/-- JavaScript text.split(' '), embedded structurally over the character
list so that it evaluates inside the kernel. -/
def jsSplit (s : String) : List String := splitAux s.data []

/-- The ASCII whitespace characters JavaScript trim removes (the Unicode
space family is irrelevant to this development). -/
def jsWhitespace (c : Char) : Bool :=
  c = ' ' ∨ c = '\t' ∨ c = '\n' ∨ c = '\r' ∨ c = '\x0b' ∨ c = '\x0c'

/-- JavaScript String.prototype.trim: drop whitespace from both ends. -/
def jsTrim (s : String) : String :=
  String.mk (((s.data.dropWhile jsWhitespace).reverse.dropWhile
    jsWhitespace).reverse)

/-- JavaScript file.type.startsWith('image/'). -/
def startsWithImage (m : String) : Bool := "image/".data.isPrefixOf m.data

/-- Source: const MIN_ZOOM = 0.2. -/
def MIN_ZOOM : ℚ := 1/5

/-- Source: const MAX_ZOOM = 5. -/
def MAX_ZOOM : ℚ := 5

/-- The composed canvas transform set by draw():
translate(canvas.width/2 + offset.x, canvas.height/2 + offset.y);
scale(zoom, zoom); translate(-image.naturalWidth/2, -image.naturalHeight/2).
worldToScreen applies this matrix to a world point. -/
def worldToScreen (surf : Surface) (img : ImageFile) (zoom : ℚ) (offset : Pt)
    (p : Pt) : Pt :=
  ⟨(p.x - img.naturalWidth / 2) * zoom + (surf.width / 2 + offset.x),
   (p.y - img.naturalHeight / 2) * zoom + (surf.height / 2 + offset.y)⟩

/-- getTransformedPoint applies the inverse of the same composed matrix to
a screen point (the source inverts ctx.getTransform()). -/
def getTransformedPoint (surf : Surface) (img : ImageFile) (zoom : ℚ)
    (offset : Pt) (p : Pt) : Pt :=
  ⟨(p.x - (surf.width / 2 + offset.x)) / zoom + img.naturalWidth / 2,
   (p.y - (surf.height / 2 + offset.y)) / zoom + img.naturalHeight / 2⟩

/-- The containment predicate of the select-tool hit test
(handlePointerDown, select branch):
point.x >= x1 && point.x <= x2 && point.y >= y1 && point.y <= y2
with x1 = ann.x, x2 = ann.x + ann.width, y1 = ann.y, y2 = ann.y + ann.height. -/
def annContains (a : Annot) (p : Pt) : Bool :=
  decide (p.x ≥ a.x) && decide (p.x ≤ a.x + a.width) &&
  decide (p.y ≥ a.y) && decide (p.y ≤ a.y + a.height)

/-- Source: [...annotations].reverse().find(ann => containment) — the hit
test scans the store in reverse order and takes the first containing
record, i.e. the last containing record in store order. -/
def hitTest (anns : List Annot) (p : Pt) : Option Annot :=
  anns.reverse.find? (fun a => annContains a p)

/-- The loop of getTextBlockHeight: words is the remaining word list, n
the JS loop index, line the accumulated current line, lines the line
counter (starting at 1).  A break happens when measureText(testLine) >
maxWidth and n > 0. -/
def wrapCount (measure : String → ℚ) (maxWidth : ℚ) :
    List String → Nat → String → Nat → Nat
  | [], _, _, lines => lines
  | w :: ws, n, line, lines =>
    let testLine := line ++ w ++ " "
    if measure testLine > maxWidth ∧ 0 < n then
      wrapCount measure maxWidth ws (n + 1) (w ++ " ") (lines + 1)
    else
      wrapCount measure maxWidth ws (n + 1) testLine lines

/-- Source: getTextBlockHeight(context, text, maxWidth, fontSize,
lineHeight) = (number of wrapped lines) * lineHeight.  The fontSize
parameter is unused in the source body as well (the font was set on the
context beforehand); text.split(' ') becomes jsSplit. -/
def getTextBlockHeight (measure : String → ℚ) (text : String)
    (maxWidth fontSize lineHeight : ℚ) : ℚ :=
  (wrapCount measure maxWidth (jsSplit text) 0 "" 1 : ℚ) * lineHeight

/-- One context.fillText(line, x, y) call issued by wrapText. -/
structure TextLine where
  line : String
  x : ℚ
  y : ℚ
deriving DecidableEq

/-- The loop of wrapText: identical wrap decisions to getTextBlockHeight,
but emitting a fillText call at every break and a final one after the
loop. -/
def wrapTextEmit (measure : String → ℚ) (maxWidth lineHeight : ℚ) :
    List String → Nat → String → ℚ → ℚ → List TextLine
  | [], _, line, x, y => [⟨line, x, y⟩]
  | w :: ws, n, line, x, y =>
    let testLine := line ++ w ++ " "
    if measure testLine > maxWidth ∧ 0 < n then
      ⟨line, x, y⟩ ::
        wrapTextEmit measure maxWidth lineHeight ws (n + 1) (w ++ " ") x
          (y + lineHeight)
    else
      wrapTextEmit measure maxWidth lineHeight ws (n + 1) testLine x y

/-- Source: wrapText(context, text, x, y, maxWidth, lineHeight), modelled
as the list of fillText calls it issues. -/
def wrapText (measure : String → ℚ) (text : String)
    (x y maxWidth lineHeight : ℚ) : List TextLine :=
  wrapTextEmit measure maxWidth lineHeight (jsSplit text) 0 "" x y

/-- The source's emptiness test in finishEditingText:
finalAnnotation.text?.trim() === '' (false when text is undefined). -/
def textTrimEmpty (t : Option String) : Bool :=
  match t with
  | none => false
  | some str => decide (jsTrim str = "")

/-- The committed text annotation built by finishEditingText: the edited
record with height recomputed as getTextBlockHeight(ctx, text, width,
fontSize, fontSize * 1.2) on a context whose font was set from fontSize.
The source's non-null assertions text! and fontSize! become getD defaults
(edit sessions always carry both fields). -/
def committedAnn (measure : ℚ → String → ℚ) (ed : Annot) : Annot :=
  { ed with
    height := getTextBlockHeight (measure (ed.fontSize.getD 0))
      (ed.text.getD "") ed.width (ed.fontSize.getD 0)
      ((ed.fontSize.getD 0) * (6/5)) }

/-- Source: finishEditingText.  Empty (trimmed) content removes the
annotation id from the store; otherwise the annotation is updated in place
when its id is already present (annotations.some) and appended when not.
The edit session is closed in every case. -/
def finishEditingText (measure : ℚ → String → ℚ) (s : EngineState) :
    EngineState :=
  match s.editingAnn with
  | none => s
  | some ed =>
    if textTrimEmpty ed.text then
      { s with
        annotations := s.annotations.filter (fun a => decide (a.id ≠ ed.id)),
        editingAnn := none }
    else
      let fin := committedAnn measure ed
      if s.annotations.any (fun a => decide (a.id = ed.id)) then
        { s with
          annotations :=
            s.annotations.map (fun a => if a.id = fin.id then fin else a),
          editingAnn := none }
      else
        { s with annotations := s.annotations ++ [fin], editingAnn := none }

/-- Source: handlePointerDown.  Returns the updated refs and state.  The
canvas is only mounted when an image is loaded, so the handler is modelled
as the identity on the state when image is none.  In the select branch the
in-progress text edit is committed only when the edit session's id differs
from the hit annotation's id (editingAnnotation.id !== hitAnnotation?.id,
which is true whenever nothing is hit). -/
def handlePointerDown (measure : ℚ → String → ℚ) (surf : Surface)
    (rc : CanvasRect) (e : PointerEvent) (refs : Refs) (s : EngineState) :
    Refs × EngineState :=
  let refs1 := { refs with
    isPointerDown := true,
    startPan := ⟨e.clientX - s.offset.x, e.clientY - s.offset.y⟩,
    zoomStartPointY := e.clientY,
    startZoom := s.zoom }
  match s.image with
  | none => (refs1, s)
  | some img =>
    let point := getTransformedPoint surf img s.zoom s.offset
      ⟨e.clientX - rc.left, e.clientY - rc.top⟩
    let refs2 := { refs1 with startPoint := point }
    if s.tool = Tool.select then
      let hitAnn := hitTest s.annotations point
      let s1 :=
        match s.editingAnn, hitAnn with
        | some ed, some h =>
            if ed.id ≠ h.id then finishEditingText measure s else s
        | some _, none => finishEditingText measure s
        | none, _ => s
      match hitAnn with
      | some h =>
          ({ refs2 with dragStartAnnotationPos := some ⟨h.x, h.y⟩ },
           { s1 with selectedAnnotationId := some h.id })
      | none => (refs2, { s1 with selectedAnnotationId := none })
    else if s.tool = Tool.eraser then
      let d : Annot :=
        ⟨"temp-eraser", AnnKind.eraser, "black", 0, 0, 0, 0, none, none,
          some [point], some s.eraserSize⟩
      (refs2, { s with drawingAnn := some d })
    else
      (refs2, s)

/-- Source: handlePointerMove.  expQ abstracts Math.exp; the zoom
sensitivity 0.005 is 1/200.  The drag, rectangle/arrow draft and eraser
branches convert the event position to world space first.  fid abstracts
the Date.now()-based draft id. -/
def handlePointerMove (expQ : ℚ → ℚ) (surf : Surface) (rc : CanvasRect)
    (refs : Refs) (e : PointerEvent) (fid : String) (s : EngineState) :
    EngineState :=
  if ¬ refs.isPointerDown then s
  else
    match s.image with
    | none => s
    | some img =>
      if s.tool = Tool.zoom then
        let deltaY := refs.zoomStartPointY - e.clientY
        let newZoom := refs.startZoom * expQ (deltaY * (1/200))
        { s with zoom := min MAX_ZOOM (max MIN_ZOOM newZoom) }
      else if s.tool = Tool.select ∧ s.selectedAnnotationId = none then
        { s with offset := ⟨e.clientX - refs.startPan.x,
                            e.clientY - refs.startPan.y⟩ }
      else
        let point := getTransformedPoint surf img s.zoom s.offset
          ⟨e.clientX - rc.left, e.clientY - rc.top⟩
        if s.tool = Tool.select then
          match s.selectedAnnotationId, refs.dragStartAnnotationPos with
          | some selId, some dpos =>
              { s with annotations := s.annotations.map (fun a =>
                  if a.id = selId then
                    { a with
                      x := dpos.x + (point.x - refs.startPoint.x),
                      y := dpos.y + (point.y - refs.startPoint.y) }
                  else a) }
          | _, _ => s
        else if s.tool = Tool.rect ∨ s.tool = Tool.arrow then
          let d : Annot :=
            ⟨fid,
             (if s.tool = Tool.rect then AnnKind.rect else AnnKind.arrow),
             s.color, refs.startPoint.x, refs.startPoint.y,
             point.x - refs.startPoint.x, point.y - refs.startPoint.y,
             none, none, none, none⟩
          { s with drawingAnn := some d }
        else if s.tool = Tool.eraser then
          match s.drawingAnn with
          | some d =>
              let d1 := { d with path := some ((d.path.getD []) ++ [point]) }
              { s with drawingAnn := some d1 }
          | none => s
        else s

/-- The dot-erasure test of handlePointerUp:
!drawingAnnotation.path || drawingAnnotation.path.length < 2. -/
def eraserDraftIsDot (d : Annot) : Bool :=
  match d.path with
  | none => true
  | some ps => decide (ps.length < 2)

/-- Source: handlePointerUp.  A present draft is appended to the store
under a fresh id (fid abstracts the Date.now()-based id) unless it is an
eraser dot; the draft is cleared in every case.  (The handler also clears
the isPointerDown and dragStartAnnotationPos refs, which are untouched
state here.) -/
def handlePointerUp (s : EngineState) (fid : String) : EngineState :=
  match s.drawingAnn with
  | none => s
  | some d =>
    if d.type = AnnKind.eraser ∧ eraserDraftIsDot d then
      { s with drawingAnn := none }
    else
      { s with
        annotations := s.annotations ++ [{ d with id := fid }],
        drawingAnn := none }

/-- Source: handleCanvasClick.  With the text tool and no open edit
session, opens a new edit session for a fresh text annotation at the
click's world point (default width 200, font size max(16, 2% of the image
width), height one line) and clears the selection.  The canvas is only
mounted with an image, so image none is modelled as the identity. -/
def handleCanvasClick (fid : String) (surf : Surface) (rc : CanvasRect)
    (e : PointerEvent) (s : EngineState) : EngineState :=
  if s.tool = Tool.text ∧ s.editingAnn = none then
    match s.image with
    | none => s
    | some img =>
      let point := getTransformedPoint surf img s.zoom s.offset
        ⟨e.clientX - rc.left, e.clientY - rc.top⟩
      let fontSize := max 16 (img.naturalWidth * (1/50))
      let d : Annot :=
        ⟨fid, AnnKind.text, s.color, point.x, point.y, 200,
          fontSize * (6/5), some "", some fontSize, none, none⟩
      { s with editingAnn := some d, selectedAnnotationId := none }
  else s

/-- A file handed to processFile: its MIME type, name, whether the browser
can decode it, and (when decodable) its natural dimensions. -/
structure FileInput where
  mimeType : String
  name : String
  decodesOk : Bool
  naturalWidth : ℚ
  naturalHeight : ℚ
deriving DecidableEq

/-- Source: processFile.  null resets image/store/draft/edit/selection and
the error (zoom and offset are kept).  A file whose MIME type does not
start with image/ only sets the error message.  Otherwise the source
clears error, annotations, draft, edit session and selection and resets
zoom and offset synchronously, creates an Image and sets its src; the
image state is replaced inside the onload callback only, and there is no
onerror handler.  Decode success or failure is modelled by the decodesOk
flag: on failure onload never fires and the eagerly reset state remains. -/
def processFile (f : Option FileInput) (s : EngineState) : EngineState :=
  match f with
  | none =>
    { s with
      image := none, annotations := [], drawingAnn := none,
      editingAnn := none, selectedAnnotationId := none, error := none }
  | some file =>
    if ¬ startsWithImage file.mimeType then
      { s with error := some "Apenas arquivos de imagem são aceitos." }
    else
      let s1 := { s with
        error := none, annotations := [], drawingAnn := none,
        editingAnn := none, selectedAnnotationId := none,
        zoom := 1, offset := ⟨0, 0⟩ }
      if file.decodesOk then
        { s1 with image := some ⟨file.name, file.naturalWidth, file.naturalHeight⟩ }
      else
        s1

/-- A drawing command issued by handleDownload onto the export canvas (a
canvas of the image's natural size with the identity transform).  Arrow
commands record the shaft endpoints and head length handed to the
trigonometric head construction. -/
inductive DrawCmd where
  | drawImage (x y : ℚ)
  | strokeRect (color : String) (lineWidth x y w h : ℚ)
  | arrowLines (color : String) (lineWidth x1 y1 x2 y2 headlen : ℚ)
  | fillTextLine (color : String) (fontSize : ℚ) (line : String) (x y : ℚ)
  | eraseStroke (strokeWidth : ℚ) (path : List Pt)
deriving DecidableEq

/-- The per-annotation switch of handleDownload: stored world coordinates
are used unchanged, the line width is the constant 4, the arrow head
length the constant 15, and erase strokes draw only when their path has
more than one point. -/
def renderAnnFlat (measure : ℚ → String → ℚ) (a : Annot) : List DrawCmd :=
  match a.type with
  | AnnKind.rect => [DrawCmd.strokeRect a.color 4 a.x a.y a.width a.height]
  | AnnKind.arrow =>
      [DrawCmd.arrowLines a.color 4 a.x a.y (a.x + a.width) (a.y + a.height) 15]
  | AnnKind.text =>
      (wrapText (measure (a.fontSize.getD 0)) (a.text.getD "") a.x a.y
        a.width ((a.fontSize.getD 0) * (6/5))).map
        (fun tl => DrawCmd.fillTextLine a.color (a.fontSize.getD 0) tl.line
          tl.x tl.y)
  | AnnKind.eraser =>
      match a.path with
      | some ps =>
          if 1 < ps.length then [DrawCmd.eraseStroke (a.strokeWidth.getD 0) ps]
          else []
      | none => []

/-- Source: handleDownload.  Absent an image it does nothing; otherwise it
draws the base image at (0,0) on a canvas of naturalWidth x naturalHeight
and then every stored annotation in store order.  The current zoom and
offset are never read. -/
def handleDownload (measure : ℚ → String → ℚ) (s : EngineState) :
    Option (List DrawCmd) :=
  match s.image with
  | none => none
  | some _ =>
      some (DrawCmd.drawImage 0 0 ::
        (s.annotations.map (renderAnnFlat measure)).flatten)

/-- A committed erase stroke exactly as handlePointerUp stores it: the
eraser draft is created with x = y = width = height = 0 (handlePointerDown,
eraser branch) and only its path is ever extended, so the stored record
keeps the zero bounds. -/
def storedEraser : Annot :=
  ⟨"ann-1", AnnKind.eraser, "black", 0, 0, 0, 0, none, none,
    some [⟨3, 3⟩, ⟨4, 4⟩], some 20⟩

/-- A rectangle dragged leftward and upward from its anchor (50,50):
stored with negative width and height, drawn extent [20,50] x [30,50]. -/
def negRect : Annot :=
  ⟨"ann-2", AnnKind.rect, "#ef4444", 50, 50, -30, -20,
    none, none, none, none⟩

/-- A measureText stub for concrete witnesses (every string measures 0). -/
def measureZero : ℚ → String → ℚ := fun _ _ => 0

/-- A zero-extent rectangle draft: anchor (10,10), pointer returned to the
anchor before release, so width = height = 0. -/
def zeroRectDraft : Annot :=
  ⟨"temp-7", AnnKind.rect, "#ef4444", 10, 10, 0, 0, none, none, none, none⟩

/-- Engine state holding the zero-extent rectangle draft over an empty
store. -/
def stateWithZeroDraft : EngineState :=
  { image := some ⟨"img.png", 100, 100⟩, error := none, tool := Tool.rect,
    color := "#ef4444", eraserSize := 20, annotations := [],
    drawingAnn := some zeroRectDraft, editingAnn := none,
    selectedAnnotationId := none, zoom := 1, offset := ⟨0, 0⟩ }

/-- A one-point eraser draft (pointer-down without movement). -/
def dotEraserDraft : Annot :=
  ⟨"temp-eraser", AnnKind.eraser, "black", 0, 0, 0, 0, none, none,
    some [⟨5, 5⟩], some 20⟩

/-- Engine state holding the one-point eraser draft. -/
def stateWithDotDraft : EngineState :=
  { image := some ⟨"img.png", 100, 100⟩, error := none, tool := Tool.eraser,
    color := "#ef4444", eraserSize := 20, annotations := [negRect],
    drawingAnn := some dotEraserDraft, editingAnn := none,
    selectedAnnotationId := none, zoom := 1, offset := ⟨0, 0⟩ }

/-- A committed text annotation with bounds [0,100] x [0,100]. -/
def textAnnA : Annot :=
  ⟨"ann-a", AnnKind.text, "#ef4444", 0, 0, 100, 100, some "Ola", some 16,
    none, none⟩

/-- An edit session on textAnnA whose content was replaced by blanks. -/
def textAnnABlank : Annot := { textAnnA with text := some "  " }

/-- State: textAnnA is stored and being edited with whitespace-only
content. -/
def stateEditBlank : EngineState :=
  { image := some ⟨"img.png", 100, 100⟩, error := none, tool := Tool.select,
    color := "#ef4444", eraserSize := 20, annotations := [textAnnA],
    drawingAnn := none, editingAnn := some textAnnABlank,
    selectedAnnotationId := none, zoom := 1, offset := ⟨0, 0⟩ }

/-- A brand-new text annotation being edited, not yet in the store:
content Hello at (20,20), wrap width 200, font size 16. -/
def textAnnNew : Annot :=
  ⟨"ann-n", AnnKind.text, "#3b82f6", 20, 20, 200, 96/5, some "Hello",
    some 16, none, none⟩

/-- State: empty store, textAnnNew being edited. -/
def stateEditNew : EngineState :=
  { image := some ⟨"img.png", 100, 100⟩, error := none, tool := Tool.text,
    color := "#3b82f6", eraserSize := 20, annotations := [],
    drawingAnn := none, editingAnn := some textAnnNew,
    selectedAnnotationId := none, zoom := 1, offset := ⟨0, 0⟩ }

/-- State with the zoom tool active over a nonempty store. -/
def stateZoomTool : EngineState :=
  { image := some ⟨"img.png", 100, 100⟩, error := none, tool := Tool.zoom,
    color := "#ef4444", eraserSize := 20, annotations := [textAnnA],
    drawingAnn := none, editingAnn := none,
    selectedAnnotationId := none, zoom := 1, offset := ⟨0, 0⟩ }

/-- Refs as set by a pointer-down: the pointer is down. -/
def refsDown : Refs := ⟨true, ⟨0, 0⟩, ⟨0, 0⟩, 0, 1, none⟩

/-- Refs before any gesture. -/
def refs0 : Refs := ⟨false, ⟨0, 0⟩, ⟨0, 0⟩, 0, 1, none⟩

/-- A stored rectangle at world (10,10) with extent 40 x 40. -/
def rectAnnStored : Annot :=
  ⟨"ann-5", AnnKind.rect, "#3b82f6", 10, 10, 40, 40, none, none, none, none⟩

/-- A fully populated engine state before a load attempt: an image is
loaded, the store is nonempty, something is selected, the view is panned
and zoomed. -/
def stateBeforeLoad : EngineState :=
  { image := some ⟨"old.png", 200, 100⟩, error := none, tool := Tool.rect,
    color := "#ef4444", eraserSize := 20, annotations := [rectAnnStored],
    drawingAnn := none, editingAnn := none,
    selectedAnnotationId := some "ann-5", zoom := 2, offset := ⟨30, 40⟩ }

/-- A file with an image MIME type that the browser cannot decode. -/
def corruptPng : FileInput := ⟨"image/png", "broken.png", false, 0, 0⟩

/-- State: textAnnA is stored and is also the open edit session (reached
via the Editar Texto button), select tool active. -/
def stateEditingSelf : EngineState :=
  { image := some ⟨"img.png", 100, 100⟩, error := none, tool := Tool.select,
    color := "#ef4444", eraserSize := 20, annotations := [textAnnA],
    drawingAnn := none, editingAnn := some textAnnA,
    selectedAnnotationId := none, zoom := 1, offset := ⟨0, 0⟩ }

/-- State with one stored rectangle, viewed at zoom 1. -/
def stateRectZoom1 : EngineState :=
  { image := some ⟨"img.png", 200, 100⟩, error := none, tool := Tool.select,
    color := "#ef4444", eraserSize := 20, annotations := [rectAnnStored],
    drawingAnn := none, editingAnn := none, selectedAnnotationId := none,
    zoom := 1, offset := ⟨0, 0⟩ }

/-- The same document viewed at zoom 3 with a different pan offset. -/
def stateRectZoom3 : EngineState :=
  { stateRectZoom1 with zoom := 3, offset := ⟨-25, 12⟩ }

/-- The command list the export produces for stateRectZoom1 (and, zoom
being ignored, for stateRectZoom3): base image, then the rectangle at its
stored world coordinates with line width 4. -/
def exportCmdsRect : List DrawCmd :=
  [DrawCmd.drawImage 0 0, DrawCmd.strokeRect "#3b82f6" 4 10 10 40 40]

end ImageAnnotator

namespace ImageAnnotator

/-- Helper: searching the reversed list is the same as taking the last
element of the filtered list. -/
theorem find_reverse_eq_getLast_filter {α : Type} (f : α → Bool) (l : List α) :
    l.reverse.find? f = (l.filter f).getLast? := by
  rw [← List.filter_head?, List.filter_reverse, List.head?_reverse]

/-- C1: for every zoom in [0.2, 5] (hence nonzero), every pan offset,
surface size, image size and point p, the screen-to-world mapping
(getTransformedPoint) and the world-to-screen mapping (worldToScreen)
built from the composed draw() transform are exact inverses of each
other; in particular getTransformedPoint (worldToScreen p) = p. -/
theorem roundtrip_world_screen (surf : Surface) (img : ImageFile) (zoom : ℚ)
    (offset p : Pt) (hz1 : MIN_ZOOM ≤ zoom) (hz2 : zoom ≤ MAX_ZOOM) :
    getTransformedPoint surf img zoom offset
      (worldToScreen surf img zoom offset p) = p
    ∧ worldToScreen surf img zoom offset
      (getTransformedPoint surf img zoom offset p) = p := by
  have hzpos : (0 : ℚ) < zoom := by
    have hmz : (0 : ℚ) < MIN_ZOOM := by norm_num [MIN_ZOOM]
    linarith
  have hz : zoom ≠ 0 := ne_of_gt hzpos
  have hz5 : zoom ≤ 5 := by
    have : MAX_ZOOM = (5 : ℚ) := by norm_num [MAX_ZOOM]
    linarith [hz2, this.ge]
  obtain ⟨px, py⟩ := p
  constructor <;>
    · simp only [getTransformedPoint, worldToScreen, Pt.mk.injEq]
      constructor <;> (field_simp; ring)

/-- Witness for C1 at concrete values: surface 800 x 600, image 100 x 80,
zoom 2, offset (3,4), point (7,9). -/
theorem roundtrip_world_screen_witness :
    getTransformedPoint ⟨800, 600⟩ ⟨"img", 100, 80⟩ 2 ⟨3, 4⟩
      (worldToScreen ⟨800, 600⟩ ⟨"img", 100, 80⟩ 2 ⟨3, 4⟩ ⟨7, 9⟩) = ⟨7, 9⟩
    ∧ worldToScreen ⟨800, 600⟩ ⟨"img", 100, 80⟩ 2 ⟨3, 4⟩
      (getTransformedPoint ⟨800, 600⟩ ⟨"img", 100, 80⟩ 2 ⟨3, 4⟩ ⟨7, 9⟩) = ⟨7, 9⟩ :=
  roundtrip_world_screen ⟨800, 600⟩ ⟨"img", 100, 80⟩ 2 ⟨3, 4⟩ ⟨7, 9⟩
    (by norm_num [MIN_ZOOM]) (by norm_num [MAX_ZOOM])

/-- C2 counterexample: the select-tool hit test has no exclusion by kind;
a stored erase stroke (bounds 0,0,0,0) is returned by the hit test at the
world point (0,0), so an eraseStroke can be selected, contrary to the
claim that erase strokes are never returned. -/
theorem hitTest_returns_erase_stroke :
    hitTest [storedEraser] ⟨0, 0⟩ = some storedEraser
    ∧ storedEraser.type = AnnKind.eraser := by
  constructor
  · norm_num [hitTest, storedEraser, annContains, List.find?]
  · rfl

/-- C2 amended: for every store and world point, the select-tool hit test
returns the last (topmost) annotation in store order whose axis-aligned
bounds contain the point, with no exclusion by kind; erase strokes take
part with their stored (degenerate, zero-extent) bounds. -/
theorem hitTest_last_contains (anns : List Annot) (p : Pt) :
    hitTest anns p = (anns.filter (fun a => annContains a p)).getLast? :=
  find_reverse_eq_getLast_filter _ anns

/-- C10: an annotation whose stored width or height is negative contains
no world point under the hit test's containment check, and therefore is
never the result of the select-tool hit test, whatever the store and the
point. -/
theorem negative_extent_never_hit (a : Annot)
    (hneg : a.width < 0 ∨ a.height < 0) :
    (∀ p : Pt, annContains a p = false)
    ∧ ∀ (anns : List Annot) (p : Pt), hitTest anns p ≠ some a := by
  have hc : ∀ p : Pt, annContains a p = false := by
    intro p
    by_contra hne
    have htrue : annContains a p = true := by
      cases h : annContains a p
      · exact absurd h hne
      · rfl
    simp only [annContains, Bool.and_eq_true, decide_eq_true_eq,
      ge_iff_le] at htrue
    obtain ⟨⟨⟨h1, h2⟩, h3⟩, h4⟩ := htrue
    rcases hneg with hw | hh
    · linarith
    · linarith
  refine ⟨hc, ?_⟩
  intro anns p hsome
  rw [hitTest] at hsome
  have hpred : annContains a p = true :=
    @List.find?_some _ (fun b => annContains b p) a anns.reverse hsome
  rw [hc p] at hpred
  exact Bool.false_ne_true hpred

/-- Witness for C10: the point (40,40) lies inside negRect's visually
drawn extent, yet the containment check rejects it and the hit test on a
store holding only negRect cannot return negRect. -/
theorem negative_extent_never_hit_witness :
    annContains negRect ⟨40, 40⟩ = false
    ∧ hitTest [negRect] ⟨40, 40⟩ ≠ some negRect :=
  ⟨(negative_extent_never_hit negRect (Or.inl (by decide))).1 ⟨40, 40⟩,
   (negative_extent_never_hit negRect (Or.inl (by decide))).2 [negRect] ⟨40, 40⟩⟩

/-- C3 counterexample: a rectangle draft with zero width and zero height
is not discarded on pointer-up; handlePointerUp appends it to the store
(the degeneracy test covers only eraser drafts). -/
theorem pointerUp_commits_zero_extent_draft :
    (handlePointerUp stateWithZeroDraft "ann-9").annotations
      = [{ zeroRectDraft with id := "ann-9" }]
    ∧ stateWithZeroDraft.annotations = []
    ∧ zeroRectDraft.type = AnnKind.rect
    ∧ zeroRectDraft.width = 0 ∧ zeroRectDraft.height = 0 :=
  ⟨rfl, rfl, rfl, rfl, rfl⟩

/-- C3 amended: pointer-up with a present draft clears the draft and
leaves the store unchanged exactly when the draft is an eraser whose path
is missing or has fewer than 2 points; every other draft — including
rectangle and arrow drafts of zero width and height — is appended to the
store under a fresh id. -/
theorem pointerUp_commit_policy (s : EngineState) (fid : String) (d : Annot)
    (h : s.drawingAnn = some d) :
    ((d.type = AnnKind.eraser ∧ eraserDraftIsDot d) →
        (handlePointerUp s fid).annotations = s.annotations)
    ∧ (¬ (d.type = AnnKind.eraser ∧ eraserDraftIsDot d) →
        (handlePointerUp s fid).annotations
          = s.annotations ++ [{ d with id := fid }])
    ∧ (handlePointerUp s fid).drawingAnn = none := by
  by_cases hc : d.type = AnnKind.eraser ∧ eraserDraftIsDot d
  · refine ⟨fun _ => ?_, fun hn => absurd hc hn, ?_⟩ <;>
      simp [handlePointerUp, h, hc]
  · refine ⟨fun hcc => absurd hcc hc, fun _ => ?_, ?_⟩ <;>
      simp [handlePointerUp, h, hc]

/-- Witness for C3 (amended): releasing a one-point eraser draft leaves
the store unchanged and clears the draft. -/
theorem pointerUp_commit_policy_witness :
    (handlePointerUp stateWithDotDraft "ann-3").annotations
      = stateWithDotDraft.annotations
    ∧ (handlePointerUp stateWithDotDraft "ann-3").drawingAnn = none :=
  ⟨(pointerUp_commit_policy stateWithDotDraft "ann-3" dotEraserDraft rfl).1
      ⟨rfl, by decide⟩,
   (pointerUp_commit_policy stateWithDotDraft "ann-3" dotEraserDraft rfl).2.2⟩

/-- C5: a pointer-move with the zoom tool active, or with the select tool
active and nothing selected (a pan), leaves the annotation store — every
stored record with all its fields — untouched, together with the draft,
the edit session, the selection, the image and the error; a zoom move
keeps the pan offset and a pan move keeps the zoom scalar, so only the
respective view-state component changes. -/
theorem panZoom_preserves_store (expQ : ℚ → ℚ) (surf : Surface)
    (rc : CanvasRect) (refs : Refs) (e : PointerEvent) (fid : String)
    (s : EngineState)
    (htool : s.tool = Tool.zoom
      ∨ (s.tool = Tool.select ∧ s.selectedAnnotationId = none)) :
    ((handlePointerMove expQ surf rc refs e fid s).annotations
        = s.annotations)
    ∧ ((handlePointerMove expQ surf rc refs e fid s).drawingAnn
        = s.drawingAnn)
    ∧ ((handlePointerMove expQ surf rc refs e fid s).editingAnn
        = s.editingAnn)
    ∧ ((handlePointerMove expQ surf rc refs e fid s).selectedAnnotationId
        = s.selectedAnnotationId)
    ∧ ((handlePointerMove expQ surf rc refs e fid s).image = s.image)
    ∧ ((handlePointerMove expQ surf rc refs e fid s).error = s.error)
    ∧ ((handlePointerMove expQ surf rc refs e fid s).tool = s.tool)
    ∧ (s.tool = Tool.zoom →
        (handlePointerMove expQ surf rc refs e fid s).offset = s.offset)
    ∧ (s.tool = Tool.select →
        (handlePointerMove expQ surf rc refs e fid s).zoom = s.zoom) := by
  cases hdown : refs.isPointerDown with
  | false => simp [handlePointerMove, hdown]
  | true =>
    cases himg : s.image with
    | none =>
      rcases htool with hz | ⟨hs, hsel⟩
      · simp [handlePointerMove, hdown, himg, hz]
      · simp [handlePointerMove, hdown, himg, hs]
    | some img =>
      rcases htool with hz | ⟨hs, hsel⟩
      · simp [handlePointerMove, hdown, himg, hz]
      · simp [handlePointerMove, hdown, himg, hs, hsel]

/-- Witness for C5: a zoom-tool pointer-move on a state holding one text
annotation changes none of the stored annotations. -/
theorem panZoom_preserves_store_witness :
    (handlePointerMove (fun _ => 1) ⟨100, 100⟩ ⟨0, 0⟩ refsDown ⟨7, 30⟩
        "t" stateZoomTool).annotations = stateZoomTool.annotations
    ∧ (handlePointerMove (fun _ => 1) ⟨100, 100⟩ ⟨0, 0⟩ refsDown ⟨7, 30⟩
        "t" stateZoomTool).offset = stateZoomTool.offset :=
  ⟨(panZoom_preserves_store (fun _ => 1) ⟨100, 100⟩ ⟨0, 0⟩ refsDown ⟨7, 30⟩
      "t" stateZoomTool (Or.inl rfl)).1,
   (panZoom_preserves_store (fun _ => 1) ⟨100, 100⟩ ⟨0, 0⟩ refsDown ⟨7, 30⟩
      "t" stateZoomTool (Or.inl rfl)).2.2.2.2.2.2.2.1 rfl⟩

/-- C6 counterexample: loading a corrupt file whose MIME type is image/*
does not leave the engine state as it was and surfaces no message — the
source clears annotations and selection and resets zoom and offset before
decoding starts, and has no onerror handler, so after the failed decode
the store is empty, the zoom is reset, the old image remains and the error
stays none. -/
theorem processFile_decode_failure_resets :
    (processFile (some corruptPng) stateBeforeLoad).annotations = []
    ∧ stateBeforeLoad.annotations ≠ []
    ∧ (processFile (some corruptPng) stateBeforeLoad).zoom = 1
    ∧ stateBeforeLoad.zoom = 2
    ∧ (processFile (some corruptPng) stateBeforeLoad).selectedAnnotationId
        = none
    ∧ stateBeforeLoad.selectedAnnotationId = some "ann-5"
    ∧ (processFile (some corruptPng) stateBeforeLoad).error = none
    ∧ (processFile (some corruptPng) stateBeforeLoad).image
        = stateBeforeLoad.image :=
  ⟨rfl, by decide, rfl, rfl, rfl, rfl, rfl, rfl⟩

/-- C6 amended: a load attempt with a non-image MIME type leaves the whole
state unchanged except for surfacing the error message; a load attempt
with an image MIME type eagerly clears annotations, draft, edit session,
selection and error and resets zoom to 1 and offset to (0,0) before
decoding, after which the image is replaced on decode success and kept (as
the previous image, with no message) on decode failure. -/
theorem processFile_load_policy (f : FileInput) (s : EngineState) :
    (¬ startsWithImage f.mimeType →
        processFile (some f) s
          = { s with error := some "Apenas arquivos de imagem são aceitos." })
    ∧ (startsWithImage f.mimeType →
        (processFile (some f) s).annotations = []
        ∧ (processFile (some f) s).drawingAnn = none
        ∧ (processFile (some f) s).editingAnn = none
        ∧ (processFile (some f) s).selectedAnnotationId = none
        ∧ (processFile (some f) s).zoom = 1
        ∧ (processFile (some f) s).offset = ⟨0, 0⟩
        ∧ (processFile (some f) s).error = none
        ∧ (f.decodesOk = true →
            (processFile (some f) s).image
              = some ⟨f.name, f.naturalWidth, f.naturalHeight⟩)
        ∧ (f.decodesOk = false →
            (processFile (some f) s).image = s.image)) := by
  by_cases hm : startsWithImage f.mimeType
  · refine ⟨fun hn => absurd hm hn, fun _ => ?_⟩
    cases hd : f.decodesOk <;>
      simp [processFile, hm, hd]
  · refine ⟨fun _ => ?_, fun hy => absurd hy hm⟩
    simp [processFile, hm]

/-- Witness for C6 (amended): the corrupt image/png load on the populated
state resets the zoom and keeps the previous image with no message. -/
theorem processFile_load_policy_witness :
    (processFile (some corruptPng) stateBeforeLoad).zoom = 1
    ∧ (processFile (some corruptPng) stateBeforeLoad).image
        = stateBeforeLoad.image
    ∧ (processFile (some corruptPng) stateBeforeLoad).error = none :=
  ⟨((processFile_load_policy corruptPng stateBeforeLoad).2
      (by decide)).2.2.2.2.1,
   ((processFile_load_policy corruptPng stateBeforeLoad).2
      (by decide)).2.2.2.2.2.2.2.2 rfl,
   ((processFile_load_policy corruptPng stateBeforeLoad).2
      (by decide)).2.2.2.2.2.2.1⟩

/-- Helper: the committed annotation keeps the edited annotation's id. -/
theorem committedAnn_id (measure : ℚ → String → ℚ) (ed : Annot) :
    (committedAnn measure ed).id = ed.id := rfl

/-- Helper: closing an edit session always clears the editingAnn cell. -/
theorem finishEditing_closes (measure : ℚ → String → ℚ) (s : EngineState)
    (ed : Annot) (hed : s.editingAnn = some ed) :
    (finishEditingText measure s).editingAnn = none := by
  by_cases he : textTrimEmpty ed.text
  · simp [finishEditingText, hed, he]
  · by_cases ha : s.annotations.any (fun a => decide (a.id = ed.id))
    · simp [finishEditingText, hed, he, ha]
    · simp [finishEditingText, hed, he, ha]

/-- Helper: the empty-content branch of finishEditingText filters the
edited id out of the store. -/
theorem finishEditing_annotations_empty (measure : ℚ → String → ℚ)
    (s : EngineState) (ed : Annot) (hed : s.editingAnn = some ed)
    (he : textTrimEmpty ed.text = true) :
    (finishEditingText measure s).annotations
      = s.annotations.filter (fun a => decide (a.id ≠ ed.id)) := by
  simp [finishEditingText, hed, he]

/-- Helper: the update branch of finishEditingText maps the store,
replacing the records carrying the edited id. -/
theorem finishEditing_annotations_update (measure : ℚ → String → ℚ)
    (s : EngineState) (ed : Annot) (hed : s.editingAnn = some ed)
    (he : textTrimEmpty ed.text = false)
    (ha : s.annotations.any (fun a => decide (a.id = ed.id)) = true) :
    (finishEditingText measure s).annotations
      = s.annotations.map
          (fun a => if a.id = ed.id then committedAnn measure ed else a) := by
  simp [finishEditingText, hed, he, ha, committedAnn_id]

/-- Helper: the insert branch of finishEditingText appends the committed
annotation. -/
theorem finishEditing_annotations_append (measure : ℚ → String → ℚ)
    (s : EngineState) (ed : Annot) (hed : s.editingAnn = some ed)
    (he : textTrimEmpty ed.text = false)
    (ha : s.annotations.any (fun a => decide (a.id = ed.id)) = false) :
    (finishEditingText measure s).annotations
      = s.annotations ++ [committedAnn measure ed] := by
  simp [finishEditingText, hed, he, ha]

/-- C4: committing a text-edit session always closes the session; with
whitespace-only content the edited id disappears from the store while
every other annotation survives in order (so a newly created annotation —
an id absent from the store — leaves the store unchanged); with non-blank
content, a new annotation is appended at the end, and a pre-existing one
is replaced in place at its original position with every other position
unchanged. -/
theorem finishEditingText_commit_policy (measure : ℚ → String → ℚ)
    (s : EngineState) (ed : Annot) (t : String)
    (hed : s.editingAnn = some ed) (ht : ed.text = some t) :
    ((finishEditingText measure s).editingAnn = none)
    ∧ (jsTrim t = "" →
        (∀ a ∈ (finishEditingText measure s).annotations, a.id ≠ ed.id)
        ∧ List.Sublist (finishEditingText measure s).annotations s.annotations
        ∧ (∀ a ∈ s.annotations, a.id ≠ ed.id →
            a ∈ (finishEditingText measure s).annotations))
    ∧ (jsTrim t ≠ "" →
        ((∀ a ∈ s.annotations, a.id ≠ ed.id) →
            (finishEditingText measure s).annotations
              = s.annotations ++ [committedAnn measure ed])
        ∧ ((∃ a, a ∈ s.annotations ∧ a.id = ed.id) →
            ∀ (i : Nat) (a : Annot), s.annotations[i]? = some a →
              (finishEditingText measure s).annotations[i]?
                = some (if a.id = ed.id then committedAnn measure ed else a))) := by
  refine ⟨finishEditing_closes measure s ed hed, fun hemp => ?_, fun hne => ?_⟩
  · have he : textTrimEmpty ed.text = true := by
      simp [textTrimEmpty, ht, hemp]
    have hres := finishEditing_annotations_empty measure s ed hed he
    refine ⟨?_, ?_, ?_⟩
    · intro a ha
      rw [hres, List.mem_filter] at ha
      simpa using ha.2
    · rw [hres]; exact List.filter_sublist _
    · intro a ha hne2
      rw [hres, List.mem_filter]
      exact ⟨ha, by simpa using hne2⟩
  · have he : textTrimEmpty ed.text = false := by
      simp [textTrimEmpty, ht, hne]
    constructor
    · intro hnone
      have ha : s.annotations.any (fun a => decide (a.id = ed.id)) = false := by
        rw [List.any_eq_false]
        intro a hmem
        simpa using hnone a hmem
      exact finishEditing_annotations_append measure s ed hed he ha
    · intro hex i a hia
      have ha : s.annotations.any (fun a => decide (a.id = ed.id)) = true := by
        rw [List.any_eq_true]
        obtain ⟨a0, ha0, hid0⟩ := hex
        exact ⟨a0, ha0, by simpa using hid0⟩
      rw [finishEditing_annotations_update measure s ed hed he ha,
        List.getElem?_map, hia]
      rfl

/-- Witness for C4: committing blank content on the stored annotation
removes it; committing a fresh annotation with content Hello appends it. -/
theorem finishEditingText_commit_policy_witness :
    (textAnnA ∉ (finishEditingText measureZero stateEditBlank).annotations)
    ∧ (finishEditingText measureZero stateEditNew).annotations
        = stateEditNew.annotations ++ [committedAnn measureZero textAnnNew] :=
  ⟨fun hmem => absurd rfl
      (((finishEditingText_commit_policy measureZero stateEditBlank
          textAnnABlank "  " rfl rfl).2.1 (by decide)).1 textAnnA hmem),
   ((finishEditingText_commit_policy measureZero stateEditNew textAnnNew
      "Hello" rfl rfl).2.2 (by decide)).1
      (fun a ha => absurd ha (List.not_mem_nil a))⟩

/-- Helper: when the select-tool pointer-down hits exactly the annotation
being edited, the edit session is not committed and the hit id is
selected, leaving the rest of the state unchanged. -/
theorem pointerDown_select_hit_self (measure : ℚ → String → ℚ)
    (surf : Surface) (rc : CanvasRect) (e : PointerEvent) (refs : Refs)
    (s : EngineState) (img : ImageFile) (ed : Annot)
    (himg : s.image = some img) (htool : s.tool = Tool.select)
    (hed : s.editingAnn = some ed)
    (hhit : hitTest s.annotations
        (getTransformedPoint surf img s.zoom s.offset
          ⟨e.clientX - rc.left, e.clientY - rc.top⟩) = some ed) :
    (handlePointerDown measure surf rc e refs s).2
      = { s with selectedAnnotationId := some ed.id } := by
  simp [handlePointerDown, himg, htool, hed, hhit]

/-- Helper: the concrete hit computation at the shared-id edit state: the
screen point (5,5) maps to the world point (5,5), which lies inside the
stored (and edited) annotation textAnnA. -/
theorem hitSelf_concrete :
    hitTest stateEditingSelf.annotations
      (getTransformedPoint ⟨100, 100⟩ ⟨"img.png", 100, 100⟩
        stateEditingSelf.zoom stateEditingSelf.offset ⟨5 - 0, 5 - 0⟩)
      = some textAnnA := by
  norm_num [hitTest, stateEditingSelf, getTransformedPoint, annContains,
    textAnnA, List.find?]

/-- C7 counterexample: with textAnnA stored and simultaneously open as the
edit session, a select-tool pointer-down inside its bounds selects its id
while leaving the edit session open — a selected id and an open text-edit
session coexist, and no commit happened first. -/
theorem pointerDown_keeps_edit_and_selects :
    ((handlePointerDown measureZero ⟨100, 100⟩ ⟨0, 0⟩ ⟨5, 5⟩ refs0
        stateEditingSelf).2).selectedAnnotationId = some "ann-a"
    ∧ ((handlePointerDown measureZero ⟨100, 100⟩ ⟨0, 0⟩ ⟨5, 5⟩ refs0
        stateEditingSelf).2).editingAnn = some textAnnA := by
  have hmain := pointerDown_select_hit_self measureZero ⟨100, 100⟩ ⟨0, 0⟩
    ⟨5, 5⟩ refs0 stateEditingSelf ⟨"img.png", 100, 100⟩ textAnnA rfl rfl rfl
    hitSelf_concrete
  rw [hmain]
  exact ⟨rfl, rfl⟩

/-- C7 amended: at most one id is ever selected (the selection is a single
optional id by construction); opening a text-edit session through the
canvas click clears the selection; a select-tool pointer-down commits an
in-progress edit of a different annotation, but a pointer-down hitting the
annotation currently being edited keeps the session open, so a selected id
and an open edit session may coexist — only ever referring to the same
annotation: whenever the edit session survives the pointer-down, the
selected id equals the edited annotation's id. -/
theorem selection_edit_exclusive_policy (measure : ℚ → String → ℚ)
    (surf : Surface) (rc : CanvasRect) (e : PointerEvent) (refs : Refs)
    (fid : String) (s : EngineState) (himg : s.image ≠ none) :
    (s.tool = Tool.select →
      ∀ ed : Annot,
        ((handlePointerDown measure surf rc e refs s).2).editingAnn
          = some ed →
        ((handlePointerDown measure surf rc e refs s).2).selectedAnnotationId
          = some ed.id)
    ∧ (s.editingAnn = none →
        (handleCanvasClick fid surf rc e s).editingAnn ≠ none →
        (handleCanvasClick fid surf rc e s).selectedAnnotationId = none) := by
  constructor
  · intro htool ed hedres
    obtain ⟨img, himg2⟩ := Option.ne_none_iff_exists'.mp himg
    cases hhit : hitTest s.annotations
        (getTransformedPoint surf img s.zoom s.offset
          ⟨e.clientX - rc.left, e.clientY - rc.top⟩) with
    | none =>
      cases hed : s.editingAnn with
      | none =>
        simp only [handlePointerDown, himg2, htool, hhit, hed] at hedres ⊢
        simp_all
      | some ed0 =>
        have hclose := finishEditing_closes measure s ed0 hed
        simp only [handlePointerDown, himg2, htool, hhit, hed] at hedres ⊢
        simp_all
    | some h =>
      cases hed : s.editingAnn with
      | none =>
        simp only [handlePointerDown, himg2, htool, hhit, hed] at hedres ⊢
        simp_all
      | some ed0 =>
        by_cases hid : ed0.id ≠ h.id
        · have hclose := finishEditing_closes measure s ed0 hed
          simp only [handlePointerDown, himg2, htool, hhit, hed, hid] at hedres ⊢
          simp_all
        · simp only [handlePointerDown, himg2, htool, hhit, hed, hid] at hedres ⊢
          have hid2 : ed0.id = h.id := not_ne_iff.mp hid
          simp_all
  · intro hednone hopen
    by_cases hcond : s.tool = Tool.text ∧ s.editingAnn = none
    · obtain ⟨img, himg2⟩ := Option.ne_none_iff_exists'.mp himg
      simp [handleCanvasClick, hcond, himg2]
    · rw [handleCanvasClick, if_neg hcond] at hopen
      exact absurd hednone hopen

/-- Witness for C7 (amended): at the shared-id edit state, the surviving
edit session's annotation id is exactly the selected id. -/
theorem selection_edit_exclusive_policy_witness :
    ((handlePointerDown measureZero ⟨100, 100⟩ ⟨0, 0⟩ ⟨5, 5⟩ refs0
        stateEditingSelf).2).selectedAnnotationId = some textAnnA.id := by
  have hmain := pointerDown_select_hit_self measureZero ⟨100, 100⟩ ⟨0, 0⟩
    ⟨5, 5⟩ refs0 stateEditingSelf ⟨"img.png", 100, 100⟩ textAnnA rfl rfl rfl
    hitSelf_concrete
  exact (selection_edit_exclusive_policy measureZero ⟨100, 100⟩ ⟨0, 0⟩
    ⟨5, 5⟩ refs0 "x" stateEditingSelf (by decide)).1 rfl textAnnA
    (by rw [hmain]; rfl)

/-- Helper: the line counter of getTextBlockHeight agrees with the number
of fillText calls wrapText issues — the two loops make identical wrap
decisions. -/
theorem wrapCount_add_one_eq (measure : String → ℚ) (maxWidth lineHeight : ℚ) :
    ∀ (ws : List String) (n lines : Nat) (line : String) (x y : ℚ),
      wrapCount measure maxWidth ws n line lines + 1
        = lines
          + (wrapTextEmit measure maxWidth lineHeight ws n line x y).length := by
  intro ws
  induction ws with
  | nil => intro n lines line x y; simp [wrapCount, wrapTextEmit]
  | cons w ws ih =>
    intro n lines line x y
    by_cases hc : measure (line ++ w ++ " ") > maxWidth ∧ 0 < n
    · simp only [wrapCount, wrapTextEmit, if_pos hc, List.length_cons]
      rw [ih (n + 1) (lines + 1) (w ++ " ") x (y + lineHeight)]
      omega
    · simp only [wrapCount, wrapTextEmit, if_neg hc]
      exact ih (n + 1) lines (line ++ w ++ " ") x y

/-- C8: the derived height of a text annotation is the number of lines
the greedy word-wrap produces times the line height fontSize * 1.2 (for
every abstract text-measuring function); finishEditingText commits the
edited annotation with its height recomputed by that very formula from
its current content, wrap width and font size; and the single word Hello
at wrap width 200 and font size 16 always yields one line, hence height
96/5 = 19.2. -/
theorem textHeight_wrap_policy (measure : ℚ → String → ℚ)
    (s : EngineState) (ed : Annot) (t : String)
    (hed : s.editingAnn = some ed) (ht : ed.text = some t)
    (hne : jsTrim t ≠ "") :
    (∀ (m : String → ℚ) (text : String) (maxWidth fontSize x y : ℚ),
      getTextBlockHeight m text maxWidth fontSize (fontSize * (6/5))
        = ((wrapText m text x y maxWidth (fontSize * (6/5))).length : ℚ)
          * (fontSize * (6/5)))
    ∧ committedAnn measure ed ∈ (finishEditingText measure s).annotations
    ∧ (committedAnn measure ed).height
        = getTextBlockHeight (measure (ed.fontSize.getD 0)) t ed.width
          (ed.fontSize.getD 0) ((ed.fontSize.getD 0) * (6/5))
    ∧ (∀ m : String → ℚ,
        getTextBlockHeight m "Hello" 200 16 (16 * (6/5)) = 96/5) := by
  refine ⟨?_, ?_, ?_, ?_⟩
  · intro m text maxWidth fontSize x y
    rw [getTextBlockHeight, wrapText]
    have h2 : wrapCount m maxWidth (jsSplit text) 0 "" 1
        = (wrapTextEmit m maxWidth (fontSize * (6/5)) (jsSplit text) 0 ""
            x y).length := by
      have h := wrapCount_add_one_eq m maxWidth (fontSize * (6/5))
        (jsSplit text) 0 1 "" x y
      omega
    rw [h2]
  · have he : textTrimEmpty ed.text = false := by
      simp [textTrimEmpty, ht, hne]
    by_cases ha : s.annotations.any (fun a => decide (a.id = ed.id))
    · rw [finishEditing_annotations_update measure s ed hed he ha]
      obtain ⟨a0, ha0, hdec⟩ := List.any_eq_true.mp ha
      have hid : a0.id = ed.id := by simpa using hdec
      refine List.mem_map.mpr ⟨a0, ha0, ?_⟩
      simp [hid]
    · have ha2 : s.annotations.any (fun a => decide (a.id = ed.id))
          = false := by simpa using ha
      rw [finishEditing_annotations_append measure s ed hed he ha2]
      exact List.mem_append_right _ (List.mem_singleton.mpr rfl)
  · simp [committedAnn, ht]
  · intro m
    have hsplit : jsSplit "Hello" = ["Hello"] := by decide
    rw [getTextBlockHeight, hsplit]
    have hone : wrapCount m 200 ["Hello"] 0 "" 1 = 1 := by
      simp [wrapCount]
    rw [hone]
    norm_num

/-- Witness for C8: committing the fresh Hello annotation stores it with
the derived height, which the formula evaluates for the concrete zero
measure as well. -/
theorem textHeight_wrap_policy_witness :
    committedAnn measureZero textAnnNew
        ∈ (finishEditingText measureZero stateEditNew).annotations
    ∧ (committedAnn measureZero textAnnNew).height
        = getTextBlockHeight (measureZero (textAnnNew.fontSize.getD 0))
          "Hello" textAnnNew.width (textAnnNew.fontSize.getD 0)
          ((textAnnNew.fontSize.getD 0) * (6/5)) :=
  ⟨(textHeight_wrap_policy measureZero stateEditNew textAnnNew "Hello" rfl
      rfl (by decide)).2.1,
   (textHeight_wrap_policy measureZero stateEditNew textAnnNew "Hello" rfl
      rfl (by decide)).2.2.1⟩

/-- C9: the flatten/export pipeline reads only the image and the
annotation store — two states agreeing on those export identically,
whatever their zoom and offset — and every stored rectangle is exported
as a strokeRect at its stored world coordinates with the pixel-fixed line
width 4. -/
theorem flatten_ignores_view (measure : ℚ → String → ℚ)
    (s1 s2 : EngineState) (himg : s1.image = s2.image)
    (hann : s1.annotations = s2.annotations) :
    handleDownload measure s1 = handleDownload measure s2
    ∧ ∀ a : Annot, a ∈ s1.annotations → a.type = AnnKind.rect →
        ∀ cmds : List DrawCmd, handleDownload measure s1 = some cmds →
          DrawCmd.strokeRect a.color 4 a.x a.y a.width a.height ∈ cmds := by
  constructor
  · simp only [handleDownload, himg, hann]
  · intro a ha htype cmds hcmds
    cases himg1 : s1.image with
    | none =>
      rw [handleDownload, himg1] at hcmds
      exact absurd hcmds (by simp)
    | some img =>
      rw [handleDownload, himg1] at hcmds
      have hcl := Option.some.inj hcmds
      subst hcl
      apply List.mem_cons_of_mem
      rw [List.mem_flatten]
      refine ⟨renderAnnFlat measure a, List.mem_map_of_mem _ ha, ?_⟩
      simp [renderAnnFlat, htype]

/-- Witness for C9: the rectangle drawn at world (10,10)-(50,50) exports
with exactly those coordinates both at zoom 1 and at zoom 3. -/
theorem flatten_ignores_view_witness :
    handleDownload measureZero stateRectZoom1
      = handleDownload measureZero stateRectZoom3
    ∧ DrawCmd.strokeRect "#3b82f6" 4 10 10 40 40 ∈ exportCmdsRect :=
  ⟨(flatten_ignores_view measureZero stateRectZoom1 stateRectZoom3 rfl rfl).1,
   (flatten_ignores_view measureZero stateRectZoom1 stateRectZoom3 rfl rfl).2
      rectAnnStored (List.mem_singleton.mpr rfl) rfl exportCmdsRect rfl⟩

end ImageAnnotator
